import Mathlib

/-!
Verification of the data-storyteller application (CSV upload → statistical
profiling → prompt compilation → narrative-service call → chart binding).

Shallow embedding conventions:
* pandas DataFrames are modelled column-wise; dtype tags mirror the dtype
  strings the source dispatches on (`int64`, `float64`, `object`, `category`,
  datetime).
* Python floats are modelled as rationals (`ℚ`); `abs` is `pabs`; float `NaN`
  entries of a correlation matrix are modelled as `Option.none` where the
  source can meet them.
* Library calls whose numeric output the claims do not constrain
  (Pearson coefficients, `scipy.stats.linregress`, `pd.to_datetime`,
  `chardet.detect`, `json.loads`) are parameters of the embedding.
* Fallible Python code returns `Except`; an `Except.error` models an
  exception escaping the function to its caller, while caught exceptions are
  folded into the normal return value exactly where the source catches them.
-/

/-- Python `abs` on a float, modelled on `ℚ`. -/
def pabs (q : ℚ) : ℚ := if q < 0 then -q else q

/-- Python `str.lower`, modelled characterwise. -/
def pyLower (s : String) : String := ⟨s.data.map Char.toLower⟩

/-- Python truthiness of an optional string: `None` and `""` are falsy. -/
def optFalsy : Option String → Bool
  | none => true
  | some s => s == ""

/-- Arithmetic mean of a list (pandas `Series.mean`). -/
def listMean (l : List ℚ) : ℚ := l.sum / l.length

/-- Maximum of a list (pandas `Series.max`); 0 on the empty list, which the
source never hits. -/
def listMax : List ℚ → ℚ
  | [] => 0
  | x :: xs => xs.foldl (fun a b => if a < b then b else a) x

/-- Minimum of a list (pandas `Series.min`); 0 on the empty list. -/
def listMin : List ℚ → ℚ
  | [] => 0
  | x :: xs => xs.foldl (fun a b => if b < a then b else a) x

/-- Minimum of a list of integers (`Series.min` on datetimes); 0 on empty. -/
def listMinInt : List Int → Int
  | [] => 0
  | x :: xs => xs.foldl (fun a b => if b < a then b else a) x

/-- Column dtype tags, as the strings the source dispatches on. -/
inductive Dtype
  | int64
  | float64
  | object_
  | category
  | datetime64
  deriving DecidableEq, Repr

/-- `select_dtypes(include=['int64','float64'])` membership. -/
def Dtype.isNumeric : Dtype → Bool
  | .int64 => true
  | .float64 => true
  | _ => false

/-- One named, dtype-tagged column of a DataFrame (shape only; the
visualizer claims never read the cell values). -/
structure Column where
  name : String
  dtype : Dtype
  deriving DecidableEq, Repr

/-- A DataFrame, for the parts of the code that only inspect column names
and dtypes. -/
abbrev Frame := List Column

/-- `df.columns`. -/
def Frame.columns (df : Frame) : List String := df.map (·.name)

/-- `df.select_dtypes(include=['int64','float64']).columns.tolist()`. -/
def numeric_columns (df : Frame) : List String :=
  (df.filter (fun c => c.dtype.isNumeric)).map (·.name)

namespace DataVisualizer

/-- A chart specification as consumed by `create_chart`
(src/data_visualizer.py): the dictionary keys `type`, `x_column`,
`y_column`, `title`, each possibly absent. -/
structure ChartInfo where
  type : Option String
  x_column : Option String
  y_column : Option String
  title : Option String
  deriving DecidableEq, Repr

/-- The figure returned by a chart-type-specific rendering routine, tagged
with the columns it was bound to. -/
inductive Fig
  | bar (x y : String)
  | line (x y : String)
  | scatter (x y : String)
  | pie (x y : String)
  | heatmap
  deriving DecidableEq, Repr

/-- `create_bar_chart` (src/data_visualizer.py line 132): always produces a
figure for the given columns. -/
def create_bar_chart (_df : Frame) (x y : String) : Fig := .bar x y

/-- `create_line_chart` (src/data_visualizer.py line 160). -/
def create_line_chart (_df : Frame) (x y : String) : Fig := .line x y

/-- `create_scatter_chart` (src/data_visualizer.py line 192). -/
def create_scatter_chart (_df : Frame) (x y : String) : Fig := .scatter x y

/-- `create_pie_chart` (src/data_visualizer.py line 219). -/
def create_pie_chart (_df : Frame) (x y : String) : Fig := .pie x y

/-- `create_heatmap` (src/data_visualizer.py lines 240-265): ignores the x/y
columns of the spec, requires at least 2 numeric columns in the whole
dataset, else returns `None`. -/
def create_heatmap (df : Frame) (_chart_info : ChartInfo) : Option Fig :=
  if (numeric_columns df).length < 2 then none
  else some .heatmap

/-- `create_chart` (src/data_visualizer.py lines 85-130). The x/y presence
check and the column-existence check run before the dispatch on the chart
type, for every chart type. -/
def create_chart (df : Frame) (chart_info : ChartInfo) : Option Fig :=
  let chart_type := pyLower (chart_info.type.getD "")
  let xo := chart_info.x_column
  let yo := chart_info.y_column
  if optFalsy xo || optFalsy yo then none
  else
    let x := xo.getD ""
    let y := yo.getD ""
    if x ∉ df.columns ∨ y ∉ df.columns then none
    else if chart_type == "bar" then some (create_bar_chart df x y)
    else if chart_type == "line" then some (create_line_chart df x y)
    else if chart_type == "scatter" then some (create_scatter_chart df x y)
    else if chart_type == "pie" then some (create_pie_chart df x y)
    else if chart_type == "heatmap" then create_heatmap df chart_info
    else none

end DataVisualizer

namespace App

/-- JSON values / the Python values the client's response handling can meet. -/
inductive PyVal
  | str (s : String)
  | num (n : Int)
  | pbool (b : Bool)
  | pnull
  | arr (xs : List PyVal)
  | obj (fs : List (String × PyVal))

/-- The exceptions the response-handling code can raise, split by whether the
source's `except` clauses catch them: `KeyError` and `json.JSONDecodeError`
are caught, `TypeError` and `IndexError` are not. -/
inductive PyErr
  | keyError
  | typeError
  | indexError
  | jsonDecodeError
  deriving DecidableEq, Repr

/-- Python substring test (`pat in s` for strings). -/
def strContains (s pat : String) : Bool := (s.splitOn pat).length != 1

/-- Python `k in x`: key test on a dict, membership on a list, substring test
on a string, `TypeError` otherwise. -/
def pyContains (x : PyVal) (k : String) : Except PyErr Bool :=
  match x with
  | .obj fs => .ok (fs.any (fun p => p.1 == k))
  | .arr xs => .ok (xs.any (fun v => match v with | .str s => s == k | _ => false))
  | .str s => .ok (strContains s k)
  | _ => .error .typeError

/-- Python `len(x)`: size of a dict, list or string, `TypeError` otherwise. -/
def pyLen (x : PyVal) : Except PyErr Nat :=
  match x with
  | .obj fs => .ok fs.length
  | .arr xs => .ok xs.length
  | .str s => .ok s.length
  | _ => .error .typeError

/-- Python `x[k]` for a string key: dict lookup (`KeyError` when absent),
`TypeError` on lists, strings and scalars. -/
def pySubscrKey (x : PyVal) (k : String) : Except PyErr PyVal :=
  match x with
  | .obj fs =>
    match fs.lookup k with
    | some v => .ok v
    | none => .error .keyError
  | _ => .error .typeError

/-- Python `x[0]`: list indexing (`IndexError` out of range), first character
of a string, `KeyError` on a dict (JSON object keys are strings), `TypeError`
on scalars. -/
def pySubscrZero (x : PyVal) : Except PyErr PyVal :=
  match x with
  | .arr xs =>
    match xs with
    | v :: _ => .ok v
    | [] => .error .indexError
  | .str s =>
    match s.data with
    | c :: _ => .ok (.str (String.singleton c))
    | [] => .error .indexError
  | .obj _ => .error .keyError
  | _ => .error .typeError

/-- One HTTP exchange as `requests.post` reports it: a transport-level
failure (any `requests.exceptions.RequestException`), or a response carrying
a status code and a body (`none` when the body is not valid JSON, so that
`response.json()` raises). -/
inductive HttpOutcome
  | transportError
  | response (status : Nat) (body : Option PyVal)

/-- `response.raise_for_status()`: raises `requests.exceptions.HTTPError`
exactly for 4xx and 5xx status codes. -/
def raise_for_status_fails (status : Nat) : Bool :=
  400 ≤ status && status < 600

/-- The body of `generate_data_story` from `response_json` on
(src/app.py lines 81-89): evaluate
`"choices" in response_json and len(response_json["choices"]) > 0`, then
`response_json["choices"][0]["message"]["content"]`, then `json.loads` on
the content (`json.loads` raises `TypeError` on a non-string argument;
its `JSONDecodeError` on an unparseable string is caught right there and
turned into `None`). -/
def handleResponseJson (parseJson : String → Option PyVal) (rj : PyVal) :
    Except PyErr (Option PyVal) := do
  let hasChoices ← pyContains rj "choices"
  if hasChoices then
    let choices ← pySubscrKey rj "choices"
    let n ← pyLen choices
    if 0 < n then
      let c0 ← pySubscrZero choices
      let msg ← pySubscrKey c0 "message"
      let content ← pySubscrKey msg "content"
      match content with
      | .str s => pure (parseJson s)
      | _ => .error .typeError
    else
      pure none
  else
    pure none

/-- `generate_data_story` (src/app.py lines 48-100). Returns the parsed
story (`Except.ok`, with `none` for every failure the source catches) or an
uncaught exception (`Except.error`), paired with the number of HTTP requests
issued. `apiKey` is the module-level `API_KEY`; `parseJson` abstracts
`json.loads` on the returned content. The source makes at most one
`requests.post` call, with no retry loop. -/
def generate_data_story (apiKey : Option String)
    (parseJson : String → Option PyVal) (call : HttpOutcome) :
    Except PyErr (Option PyVal) × Nat :=
  if optFalsy apiKey then (.ok none, 0)
  else
    match call with
    | .transportError => (.ok none, 1)
    | .response status body =>
      if raise_for_status_fails status then (.ok none, 1)
      else
        match body with
        | none => (.ok none, 1)
        | some rj =>
          match handleResponseJson parseJson rj with
          | .ok v => (.ok v, 1)
          | .error .keyError => (.ok none, 1)
          | .error .jsonDecodeError => (.ok none, 1)
          | .error e => (.error e, 1)

end App

namespace Prompts

/-- The `high_correlations` list built inside `generate_data_story_prompt`
(src/prompts.py lines 56-72): walk the nested correlation dictionary
(row label, then column label to coefficient) and keep an entry whenever
`col1 != col2 and abs(val) >= 0.5`. A `NaN` coefficient is modelled as
`none`; `abs(nan) >= 0.5` is false in Python, so it is skipped. -/
def high_correlations (corr_data : List (String × List (String × Option ℚ))) :
    List (String × String × ℚ) :=
  corr_data.flatMap (fun p =>
    p.2.filterMap (fun q =>
      match q.2 with
      | some v =>
        if p.1 ≠ q.1 ∧ (1/2 : ℚ) ≤ pabs v then some (p.1, q.1, v) else none
      | none => none))

end Prompts

namespace Utils

/-- pandas `Series.quantile(q)` with the default linear interpolation:
on the sorted values, index `h = q*(n-1)`, interpolating between the
neighbouring order statistics. -/
def quantile (l : List ℚ) (q : ℚ) : ℚ :=
  let s := l.insertionSort (· ≤ ·)
  let h : ℚ := q * (s.length - 1)
  let i : ℕ := (Int.floor h).toNat
  let lo := s.getD i 0
  let hi := s.getD (i + 1) lo
  lo + (h - Int.floor h) * (hi - lo)

/-- The dictionary `detect_anomalies` returns on its `method='iqr'` branch
(src/utils.py lines 329-348). `anomalies = none` models the source's
explicit `None` ("omitted"); `note` records whether the omission note was
added. -/
structure IqrResult where
  lower_bound : ℚ
  upper_bound : ℚ
  anomaly_count : ℕ
  anomaly_percent : ℚ
  anomalies : Option (List ℚ)
  note : Bool

/-- `detect_anomalies(df, column, method='iqr', threshold)` (src/utils.py
lines 304-348), restricted to a numeric column present in the frame, whose
values are `values`; the flagged rows are represented by their values in
that column. -/
def detect_anomalies (values : List ℚ) (threshold : ℚ) : IqrResult :=
  let Q1 := quantile values (1/4)
  let Q3 := quantile values (3/4)
  let IQR := Q3 - Q1
  let lower_bound := Q1 - threshold * IQR
  let upper_bound := Q3 + threshold * IQR
  let anomalies := values.filter (fun v => decide (v < lower_bound) || decide (upper_bound < v))
  { lower_bound := lower_bound
    upper_bound := upper_bound
    anomaly_count := anomalies.length
    anomaly_percent := (anomalies.length : ℚ) / values.length * 100
    anomalies := if anomalies.length ≤ 10 then some anomalies else none
    note := decide (10 < anomalies.length) }

/-- Sort order used by `strong_correlations.sort(key=lambda x: abs(x[2]),
reverse=True)`: descending absolute coefficient. Python's sort is stable,
so ties keep their original relative order, which `List.insertionSort`
reproduces. -/
def corrGE (a b : String × String × ℚ) : Prop := pabs b.2.2 ≤ pabs a.2.2

instance : DecidableRel corrGE := fun a b => by unfold corrGE; infer_instance

instance : IsTotal (String × String × ℚ) corrGE :=
  ⟨fun a b => le_total (pabs b.2.2) (pabs a.2.2)⟩

instance : IsTrans (String × String × ℚ) corrGE :=
  ⟨fun _ _ _ h h' => le_trans h' h⟩

/-- The strict upper triangle of the pair grid over `names`, in the order the
double loop `for i in range(n): for j in range(i+1, n)` visits it. -/
def upperPairs : List String → List (String × String)
  | [] => []
  | x :: xs => (xs.map (fun y => (x, y))) ++ upperPairs xs

/-- `identify_correlations(df, threshold)` (src/utils.py lines 146-181).
`corr` abstracts the Pearson matrix `numeric_df.corr()`; an entry is `none`
where the matrix holds `NaN` (zero-variance column), and
`abs(NaN) >= threshold` is false in Python, so such pairs are skipped. -/
def identify_correlations (corr : String → String → Option ℚ) (df : Frame)
    (threshold : ℚ) : List (String × String × ℚ) :=
  let names := numeric_columns df
  if names.length < 2 then []
  else
    let strong := (upperPairs names).filterMap (fun p =>
      match corr p.1 p.2 with
      | some v => if threshold ≤ pabs v then some (p.1, p.2, v) else none
      | none => none)
    strong.insertionSort corrGE

/-- A pandas timestamp, reduced to what `identify_trends` reads from it:
a linear time coordinate in days (`.dt.days` after subtracting the minimum)
and the calendar month (`.dt.month`, 1-12). -/
structure PyDate where
  t : Int
  month : ℕ
  deriving DecidableEq, Repr

/-- The data of one column of the frame passed to `identify_trends`. -/
inductive ColData
  | dt (vals : List PyDate)
  | raw (vals : List String)
  | num (vals : List ℚ)
  deriving DecidableEq, Repr

/-- A DataFrame, column-wise, for `identify_trends`. -/
abbrev TFrame := List (String × ColData)

/-- In-place assignment `df[c] = v` to an existing column. -/
def colUpdate (df : TFrame) (c : String) (v : ColData) : TFrame :=
  df.map (fun p => if p.1 = c then (c, v) else p)

/-- Month keys of `groupby(dates.dt.month)`: distinct months, ascending. -/
def monthKeys (rows : List (ℕ × ℚ)) : List ℕ :=
  ((rows.map (·.1)).dedup).insertionSort (· ≤ ·)

/-- `df_sorted.groupby(month)[value].mean()`: for each month present, the
mean of the values falling in it, keyed in ascending month order. -/
def monthlyMeans (rows : List (ℕ × ℚ)) : List (ℕ × ℚ) :=
  (monthKeys rows).map (fun m =>
    (m, listMean ((rows.filter (fun r => r.1 == m)).map (·.2))))

/-- First pair attaining the maximal value (`Series.idxmax` keeps the first
index on ties). -/
def argmaxPair : List (ℕ × ℚ) → ℕ × ℚ
  | [] => (0, 0)
  | x :: xs => xs.foldl (fun best p => if best.2 < p.2 then p else best) x

/-- First pair attaining the minimal value (`Series.idxmin`). -/
def argminPair : List (ℕ × ℚ) → ℕ × ℚ
  | [] => (0, 0)
  | x :: xs => xs.foldl (fun best p => if p.2 < best.2 then p else best) x

/-- The `month_names` dictionary of `identify_trends` (src/utils.py
lines 281-284). -/
def month_names : List (ℕ × String) :=
  [(1, "1월"), (2, "2월"), (3, "3월"), (4, "4월"), (5, "5월"), (6, "6월"),
   (7, "7월"), (8, "8월"), (9, "9월"), (10, "10월"), (11, "11월"), (12, "12월")]

/-- The `trends["seasonality"]` dictionary: either the populated record
(seasonality detected) or the bare `{"exists": False}`. -/
structure Seasonality where
  seasonal : Bool
  peak_month : Option String
  lowest_month : Option String
  variation_percent : Option ℚ

/-- The seasonality block of `identify_trends` (src/utils.py lines 273-300):
only entered with at least 12 observations; means per calendar month,
seasonality flagged exactly when `max_diff > avg_value * 0.2`. -/
def seasonality_block (rows : List (ℕ × ℚ)) : Option Seasonality :=
  if 12 ≤ rows.length then
    let monthly_data := monthlyMeans rows
    let vals := monthly_data.map (·.2)
    let max_month := (argmaxPair monthly_data).1
    let min_month := (argminPair monthly_data).1
    let max_diff := listMax vals - listMin vals
    let avg_value := listMean vals
    if avg_value * (1/5) < max_diff then
      some { seasonal := true
             peak_month := month_names.lookup max_month
             lowest_month := month_names.lookup min_month
             variation_percent := some (max_diff / avg_value * 100) }
    else
      some { seasonal := false, peak_month := none, lowest_month := none
             variation_percent := none }
  else none

/-- What `identify_trends` hands back through `trends`: the structured error
dictionary, or the overall-trend value (abstracted as `O`, the outcome of
the `scipy.stats.linregress` try-block or its first/last fallback) together
with the optional seasonality entry. -/
inductive TrendResult (O : Type)
  | err (msg : String)
  | trends (overall : O) (seasonality : Option Seasonality)

/-- Lines 195-200 of src/utils.py: when the date column is not already
datetime-typed, convert it with `pd.to_datetime` and assign the result back
into the caller's frame in place; a conversion failure is caught (`none`).
`toDT` abstracts `pd.to_datetime` on a whole column (`none` = it raised). -/
def convertDates (toDT : ColData → Option (List PyDate)) (df : TFrame)
    (date_column : String) (cd : ColData) : Option (List PyDate × TFrame) :=
  match cd with
  | .dt ds => some (ds, df)
  | c => (toDT c).map (fun ds => (ds, colUpdate df date_column (.dt ds)))

/-- `identify_trends(df, date_column, value_column)` (src/utils.py
lines 183-302), assembled from `convertDates` and `seasonality_block`.
The row-count check `len(df_sorted) < 3` at line 209 runs before the value
column is ever accessed (the first access is inside the regression block),
and `len(df_sorted)` is the frame's uniform row count, i.e. the length of
the (converted) date column. `regress` abstracts the whole overall-trend
try-block, fed the rows sorted by date with the date as days since the
minimum. The first component is the function's outcome
(`Except.error ()` = an exception escapes, e.g. `KeyError` on a missing
date column, or — only once at least 3 rows exist — the unhandled shapes
of a missing or non-numeric value column); the second is the caller's
frame after the call, recording the in-place date-column conversion. -/
def identify_trends {O : Type} (regress : List (Int × ℚ) → O)
    (toDT : ColData → Option (List PyDate)) (df : TFrame)
    (date_column value_column : String) :
    Except Unit (TrendResult O) × TFrame :=
  match df.lookup date_column with
  | none => (.error (), df)
  | some cd =>
    match convertDates toDT df date_column cd with
    | none => (.ok (.err "날짜 열을 날짜 형식으로 변환할 수 없습니다."), df)
    | some (ds, df') =>
      if ds.length < 3 then
        (.ok (.err "트렌드 분석을 위한 충분한 데이터가 없습니다."), df')
      else
        match df'.lookup value_column with
        | some (.num vs) =>
          let rows := ds.zip vs
          let df_sorted := rows.insertionSort (fun a b => a.1.t ≤ b.1.t)
          let tmin := listMinInt (df_sorted.map (·.1.t))
          let date_numeric := df_sorted.map (fun r => (r.1.t - tmin, r.2))
          let overall := regress date_numeric
          let mrows := df_sorted.map (fun r => (r.1.month, r.2))
          (.ok (.trends overall (seasonality_block mrows)), df')
        | _ => (.error (), df')

end Utils

namespace DataLoader

/-- The fallback encodings of `load_csv_with_encoding` (src/data_loader.py
line 42), in source order. -/
def fallback_encodings : List String := ["utf-8", "cp949", "euc-kr", "latin1"]

/-- The `try` block of `load_csv_with_encoding`: detect the encoding, then
parse with it; `none` when either step raised. `detect` abstracts
`detect_encoding` (`Except.error` = it raised; chardet may also report
`none`, passed to the parser as the default encoding); `parse e` abstracts
`pd.read_csv(file_path, encoding=e)` (`none` = it raised). -/
def first_attempt {DF : Type} (detect : Except Unit (Option String))
    (parse : Option String → Option DF) : Option DF :=
  match detect with
  | .ok enc => parse enc
  | .error _ => none

/-- `load_csv_with_encoding(file_path)` (src/data_loader.py lines 25-51):
on any failure of the detect-then-parse attempt, the fixed fallback list is
tried in order; when every attempt fails, `ValueError` is raised
(`Except.error`). -/
def load_csv_with_encoding {DF : Type} (detect : Except Unit (Option String))
    (parse : Option String → Option DF) : Except Unit DF :=
  match first_attempt detect parse with
  | some df => .ok df
  | none =>
    match fallback_encodings.findSome? (fun e => parse (some e)) with
    | some df => .ok df
    | none => .error ()

/-- `load_uploaded_file(uploaded_file)` (src/data_loader.py lines 154-181).
`loadCsv` abstracts the `load_csv_with_encoding(temp_path)` call on the
temporary copy. The boolean is the state of the temporary file after the
call (`true` = still on disk): the source removes it both on the success
path and in the `except` handler before re-raising. -/
def load_uploaded_file {DF : Type} (loadCsv : Except Unit DF) :
    Except Unit DF × Bool :=
  let tempExists := true
  match loadCsv with
  | .ok df => (.ok df, if tempExists then false else tempExists)
  | .error _ => (.error (), if tempExists then false else tempExists)

end DataLoader

/-! ## Supporting lemmas -/

lemma pabs_eq_abs (q : ℚ) : pabs q = |q| := by
  unfold pabs
  rcases lt_or_le q 0 with h | h
  · rw [if_pos h, abs_of_neg h]
  · rw [if_neg (not_lt.mpr h), abs_of_nonneg h]

/-! ## C1: chart binder validation and the heatmap branch -/

/-- C1 counterexample: the claim says a heatmap specification ignores x/y
columns and requires only that the dataset have at least 2 numeric columns.
On a dataset with exactly 2 numeric columns, a heatmap spec with no
`x_column`/`y_column` nevertheless yields null, because `create_chart`
checks x/y presence before dispatching on the chart type. -/
theorem create_chart_heatmap_counterexample :
    DataVisualizer.create_chart
        [⟨"a", .int64⟩, ⟨"b", .float64⟩]
        ⟨some "heatmap", none, none, none⟩ = none ∧
    2 ≤ (numeric_columns [⟨"a", .int64⟩, ⟨"b", .float64⟩]).length := by
  exact ⟨rfl, by decide⟩

/-- C1 (amended): `create_chart` validates that `x_column` and `y_column`
are present (non-empty) and name existing columns of the dataset for every
chart type, heatmap included, returning null when either check fails; once
those checks pass, a heatmap specification ignores the x/y values and
returns null exactly when the dataset has fewer than 2 numeric columns. -/
theorem create_chart_validation_spec (df : Frame)
    (ci : DataVisualizer.ChartInfo) :
    ((optFalsy ci.x_column || optFalsy ci.y_column) = true →
      DataVisualizer.create_chart df ci = none) ∧
    (∀ x y, ci.x_column = some x → ci.y_column = some y →
      (x ∉ df.columns ∨ y ∉ df.columns) →
      DataVisualizer.create_chart df ci = none) ∧
    (∀ x y, ci.x_column = some x → ci.y_column = some y →
      x ≠ "" → y ≠ "" → x ∈ df.columns → y ∈ df.columns →
      pyLower (ci.type.getD "") = "heatmap" →
      (DataVisualizer.create_chart df ci = none ↔
        (numeric_columns df).length < 2)) := by
  refine ⟨?_, ?_, ?_⟩
  · intro h
    simp [DataVisualizer.create_chart, h]
  · intro x y hx hy hmem
    unfold DataVisualizer.create_chart
    rcases hb : (optFalsy ci.x_column || optFalsy ci.y_column) with _ | _
    · rw [if_neg (by simp [hb])]
      rw [hx, hy]
      simp only [Option.getD_some]
      rw [if_pos hmem]
    · rw [if_pos (by simp [hb])]
  · intro x y hx hy hxe hye hxm hym htype
    have hfx : optFalsy (some x) = false := by
      simp [optFalsy, hxe]
    have hfy : optFalsy (some y) = false := by
      simp [optFalsy, hye]
    simp only [DataVisualizer.create_chart, hx, hy, Option.getD_some, hfx,
      hfy, Bool.or_self, Bool.false_eq_true, if_false, htype]
    rw [if_neg (by push_neg; exact ⟨hxm, hym⟩)]
    simp only [String.reduceBEq, Bool.false_eq_true, if_false,
      beq_self_eq_true, if_true]
    unfold DataVisualizer.create_heatmap
    constructor
    · intro h
      by_contra hlt
      rw [if_neg hlt] at h
      exact Option.some_ne_none _ h
    · intro h
      rw [if_pos h]

/-- Witness for `create_chart_validation_spec`: on a dataset with two
numeric columns and a heatmap spec naming two existing columns, the binder
does render. -/
theorem create_chart_validation_spec_witness :
    DataVisualizer.create_chart
        [⟨"a", .int64⟩, ⟨"b", .float64⟩]
        ⟨some "heatmap", some "a", some "b", none⟩ ≠ none := by
  have h := (create_chart_validation_spec
      [⟨"a", .int64⟩, ⟨"b", .float64⟩]
      ⟨some "heatmap", some "a", some "b", none⟩).2.2 "a" "b" rfl rfl
      (by decide) (by decide) (by decide) (by decide) (by decide)
  exact fun hn => absurd (h.mp hn) (by decide)

/-! ## C3: the Simplified Summary keeps only strong correlation pairs -/

/-- C3: every entry of the `high_correlations` list built by the prompt
compiler has absolute coefficient at least 0.5 and relates two distinct
column names. -/
theorem high_correlations_strong_only
    (corr_data : List (String × List (String × Option ℚ))) :
    ∀ e ∈ Prompts.high_correlations corr_data,
      (1/2 : ℚ) ≤ |e.2.2| ∧ e.1 ≠ e.2.1 := by
  intro e he
  unfold Prompts.high_correlations at he
  rw [List.mem_flatMap] at he
  obtain ⟨p, _, he⟩ := he
  rw [List.mem_filterMap] at he
  obtain ⟨q, _, hfq⟩ := he
  rcases hq2 : q.2 with _ | v
  · rw [hq2] at hfq
    simp at hfq
  · rw [hq2] at hfq
    simp only at hfq
    by_cases hc : p.1 ≠ q.1 ∧ (1/2 : ℚ) ≤ pabs v
    · rw [if_pos hc] at hfq
      injection hfq with hfq
      subst hfq
      exact ⟨by rw [← pabs_eq_abs]; exact hc.2, hc.1⟩
    · rw [if_neg hc] at hfq
      exact absurd hfq (Option.noConfusion)

/-- Witness for `high_correlations_strong_only` on a one-entry correlation
dictionary. -/
theorem high_correlations_strong_only_witness :
    (1/2 : ℚ) ≤ |(("a", "b", (9/10 : ℚ)).2.2)| ∧
      ("a", "b", (9/10 : ℚ)).1 ≠ ("a", "b", (9/10 : ℚ)).2.1 :=
  high_correlations_strong_only [("a", [("b", some (9/10))])]
    ("a", "b", (9/10 : ℚ))
    (by
      norm_num [Prompts.high_correlations, pabs]
      intro h
      exact absurd h (by decide))

/-! ## C2: the narrative service client -/

lemma any_key_of_lookup {fs : List (String × App.PyVal)} {k : String}
    {v : App.PyVal} (h : List.lookup k fs = some v) :
    fs.any (fun p => p.1 == k) = true := by
  induction fs with
  | nil => simp [List.lookup] at h
  | cons p ps ih =>
    rcases p with ⟨k2, v2⟩
    rw [List.any_cons]
    simp only [List.lookup] at h
    split at h
    · next heq =>
      have : k2 = k := (beq_iff_eq.mp heq).symm
      simp [this]
    · rw [ih h, Bool.or_true]

lemma handleResponseJson_no_choices (pj : String → Option App.PyVal)
    (fs : List (String × App.PyVal)) (h : ∀ p ∈ fs, p.1 ≠ "choices") :
    App.handleResponseJson pj (.obj fs) = .ok none := by
  have hany : fs.any (fun p => p.1 == "choices") = false := by
    rw [List.any_eq_false]
    intro p hp
    simpa using h p hp
  simp [App.handleResponseJson, App.pyContains, hany, Bind.bind, Except.bind,
    Pure.pure, Except.pure]

lemma handleResponseJson_choices (pj : String → Option App.PyVal)
    {fs : List (String × App.PyVal)} {ch : App.PyVal}
    (h : List.lookup "choices" fs = some ch) :
    App.handleResponseJson pj (.obj fs) = (do
      let n ← App.pyLen ch
      if 0 < n then
        let c0 ← App.pySubscrZero ch
        let msg ← App.pySubscrKey c0 "message"
        let content ← App.pySubscrKey msg "content"
        match content with
        | .str s => pure (pj s)
        | _ => .error .typeError
      else
        pure none) := by
  simp [App.handleResponseJson, App.pyContains, any_key_of_lookup h,
    App.pySubscrKey, h, Bind.bind, Except.bind]

/-- C2 counterexample: the claim says the client returns null and never
raises whenever the response lacks `choices[0].message.content`. On a 200
response whose body is the JSON object `{"choices": 5}` — which lacks
`choices[0].message.content` — the source evaluates
`len(response_json["choices"])` on an integer, raising a `TypeError` that no
`except` clause catches, so an exception propagates to the caller instead of
a null result. -/
theorem generate_data_story_counterexample :
    App.generate_data_story (some "sk-test") (fun _ => none)
        (.response 200 (some (.obj [("choices", .num 5)]))) =
      (.error .typeError, 1) := rfl

/-- C2 (amended): with an API key configured, the client makes exactly one
HTTP attempt with no retry, and returns null rather than raising on: a
transport-level failure; a 4xx/5xx status; a body that is not valid JSON; a
JSON-object body without a `"choices"` key, or with an empty `"choices"`
array, or whose first choice (a JSON object) lacks `"message"`, or whose
message object lacks `"content"` — while a string content is handed to
`json.loads`, whose parse failure also yields null (ill-typed body shapes
can instead raise, see the counterexample). -/
theorem generate_data_story_null_on_failures (k : String) (hk : k ≠ "")
    (pj : String → Option App.PyVal) :
    (∀ call, (App.generate_data_story (some k) pj call).2 = 1) ∧
    App.generate_data_story (some k) pj .transportError = (.ok none, 1) ∧
    (∀ s b, 400 ≤ s → s < 600 →
      App.generate_data_story (some k) pj (.response s b) = (.ok none, 1)) ∧
    (∀ s, App.raise_for_status_fails s = false →
      App.generate_data_story (some k) pj (.response s none) =
        (.ok none, 1)) ∧
    (∀ s fs, App.raise_for_status_fails s = false →
      (∀ p ∈ fs, p.1 ≠ "choices") →
      App.generate_data_story (some k) pj (.response s (some (.obj fs))) =
        (.ok none, 1)) ∧
    (∀ s fs, App.raise_for_status_fails s = false →
      List.lookup "choices" fs = some (.arr []) →
      App.generate_data_story (some k) pj (.response s (some (.obj fs))) =
        (.ok none, 1)) ∧
    (∀ s fs ms rest, App.raise_for_status_fails s = false →
      List.lookup "choices" fs = some (.arr (.obj ms :: rest)) →
      List.lookup "message" ms = none →
      App.generate_data_story (some k) pj (.response s (some (.obj fs))) =
        (.ok none, 1)) ∧
    (∀ s fs ms cs rest, App.raise_for_status_fails s = false →
      List.lookup "choices" fs = some (.arr (.obj ms :: rest)) →
      List.lookup "message" ms = some (.obj cs) →
      List.lookup "content" cs = none →
      App.generate_data_story (some k) pj (.response s (some (.obj fs))) =
        (.ok none, 1)) ∧
    (∀ s fs ms cs rest c, App.raise_for_status_fails s = false →
      List.lookup "choices" fs = some (.arr (.obj ms :: rest)) →
      List.lookup "message" ms = some (.obj cs) →
      List.lookup "content" cs = some (.str c) →
      App.generate_data_story (some k) pj (.response s (some (.obj fs))) =
        (.ok (pj c), 1)) := by
  have hfal : optFalsy (some k) = false := by simp [optFalsy, hk]
  refine ⟨?_, ?_, ?_, ?_, ?_, ?_, ?_, ?_, ?_⟩
  · intro call
    cases call with
    | transportError => simp [App.generate_data_story, hfal]
    | response s b =>
      simp only [App.generate_data_story, hfal, Bool.false_eq_true, if_false]
      rcases hrs : App.raise_for_status_fails s with _ | _
      · simp only [Bool.false_eq_true, if_false]
        match b with
        | none => rfl
        | some rj =>
          simp only
          cases hh : App.handleResponseJson pj rj with
          | ok v => rfl
          | error e => cases e <;> rfl
      · rfl
  · simp [App.generate_data_story, hfal]
  · intro s b h4 h6
    have hrs : App.raise_for_status_fails s = true := by
      simp [App.raise_for_status_fails, h4, h6]
    simp [App.generate_data_story, hfal, hrs]
  · intro s hrs
    simp [App.generate_data_story, hfal, hrs]
  · intro s fs hrs hno
    simp [App.generate_data_story, hfal, hrs,
      handleResponseJson_no_choices pj fs hno]
  · intro s fs hrs hch
    simp [App.generate_data_story, hfal, hrs,
      handleResponseJson_choices pj hch, App.pyLen, Bind.bind, Except.bind,
      Pure.pure, Except.pure]
  · intro s fs ms rest hrs hch hmsg
    simp [App.generate_data_story, hfal, hrs,
      handleResponseJson_choices pj hch, App.pyLen, App.pySubscrZero,
      App.pySubscrKey, hmsg, Bind.bind, Except.bind]
  · intro s fs ms cs rest hrs hch hmsg hcont
    simp [App.generate_data_story, hfal, hrs,
      handleResponseJson_choices pj hch, App.pyLen, App.pySubscrZero,
      App.pySubscrKey, hmsg, hcont, Bind.bind, Except.bind]
  · intro s fs ms cs rest c hrs hch hmsg hcont
    simp [App.generate_data_story, hfal, hrs,
      handleResponseJson_choices pj hch, App.pyLen, App.pySubscrZero,
      App.pySubscrKey, hmsg, hcont, Bind.bind, Except.bind, Pure.pure,
      Except.pure]

/-- Witness for `generate_data_story_null_on_failures`: a well-shaped 200
response round-trips the parsed content. -/
theorem generate_data_story_null_on_failures_witness :
    App.generate_data_story (some "sk-test") (fun _ => some .pnull)
        (.response 200 (some (.obj
          [("choices", .arr [.obj [("message", .obj
            [("content", .str "42")])]])]))) =
      (.ok (some .pnull), 1) :=
  (generate_data_story_null_on_failures "sk-test" (by decide)
      (fun _ => some .pnull)).2.2.2.2.2.2.2.2 200
    [("choices", .arr [.obj [("message", .obj [("content", .str "42")])]])]
    [("message", .obj [("content", .str "42")])] [("content", .str "42")]
    [] "42" rfl rfl rfl rfl

/-! ## C5: IQR anomaly detection -/

/-- C5: on the `iqr` branch, `detect_anomalies` reports the bounds
`Q1 - k*IQR` and `Q3 + k*IQR`, flags exactly the values strictly outside
them, reports their count and the percentage of rows flagged, includes the
flagged rows exactly when the count is at most 10 and otherwise omits them
with a note; on `[1,2,3,4,5,100]` with `k = 1.5` it flags `100` as the sole
anomaly. -/
theorem detect_anomalies_iqr_spec (values : List ℚ) (k : ℚ) :
    (Utils.detect_anomalies values k).lower_bound =
      Utils.quantile values (1/4) -
        k * (Utils.quantile values (3/4) - Utils.quantile values (1/4)) ∧
    (Utils.detect_anomalies values k).upper_bound =
      Utils.quantile values (3/4) +
        k * (Utils.quantile values (3/4) - Utils.quantile values (1/4)) ∧
    (values ≠ [] →
      (Utils.detect_anomalies values k).anomaly_percent *
          (values.length : ℚ) =
        ((Utils.detect_anomalies values k).anomaly_count : ℚ) * 100) ∧
    ((Utils.detect_anomalies values k).anomalies.isSome ↔
      (Utils.detect_anomalies values k).anomaly_count ≤ 10) ∧
    ((Utils.detect_anomalies values k).note = true ↔
      10 < (Utils.detect_anomalies values k).anomaly_count) ∧
    (∀ l, (Utils.detect_anomalies values k).anomalies = some l →
      (Utils.detect_anomalies values k).anomaly_count = l.length ∧
      ∀ v, v ∈ l ↔ v ∈ values ∧
        (v < (Utils.detect_anomalies values k).lower_bound ∨
          (Utils.detect_anomalies values k).upper_bound < v)) ∧
    Utils.detect_anomalies [1, 2, 3, 4, 5, 100] (3/2) =
      ⟨-(3/2), 17/2, 1, 50/3, some [100], false⟩ := by
  refine ⟨rfl, rfl, ?_, ?_, ?_, ?_, ?_⟩
  · intro hne
    have hlen : (values.length : ℚ) ≠ 0 :=
      Nat.cast_ne_zero.mpr (by simpa [List.length_eq_zero] using hne)
    simp only [Utils.detect_anomalies]
    field_simp
  · simp only [Utils.detect_anomalies]
    split_ifs with h
    · simpa using h
    · simpa using h
  · simp only [Utils.detect_anomalies]
    simp [decide_eq_true_eq]
  · intro l hl
    simp only [Utils.detect_anomalies] at hl ⊢
    split_ifs at hl with h
    · injection hl with hl
      subst hl
      refine ⟨rfl, ?_⟩
      intro v
      simp [List.mem_filter]
  · norm_num [Utils.detect_anomalies, Utils.quantile, List.insertionSort,
      List.orderedInsert, Int.toNat, List.filter, Utils.IqrResult.mk.injEq]

/-- Witness for `detect_anomalies_iqr_spec`: the percentage identity at the
spec's own example input. -/
theorem detect_anomalies_iqr_spec_witness :
    (Utils.detect_anomalies [1, 2, 3, 4, 5, 100] (3/2)).anomaly_percent *
        (([1, 2, 3, 4, 5, 100] : List ℚ).length : ℚ) =
      ((Utils.detect_anomalies [1, 2, 3, 4, 5, 100] (3/2)).anomaly_count : ℚ)
        * 100 :=
  (detect_anomalies_iqr_spec [1, 2, 3, 4, 5, 100] (3/2)).2.2.1 (by decide)

/-! ## C6: seasonality detection in identify_trends -/

lemma foldl_max_mem (x : ℕ × ℚ) (xs : List (ℕ × ℚ)) :
    xs.foldl (fun best p => if best.2 < p.2 then p else best) x ∈ x :: xs := by
  induction xs generalizing x with
  | nil => simp
  | cons y ys ih =>
    simp only [List.foldl_cons]
    rcases List.mem_cons.mp (ih (if x.2 < y.2 then y else x)) with h | h
    · rw [h]
      split_ifs
      · exact List.mem_cons_of_mem _ (List.mem_cons_self _ _)
      · exact List.mem_cons_self _ _
    · exact List.mem_cons_of_mem _ (List.mem_cons_of_mem _ h)

lemma foldl_max_ge (x : ℕ × ℚ) (xs : List (ℕ × ℚ)) :
    ∀ q ∈ x :: xs,
      q.2 ≤ (xs.foldl (fun best p => if best.2 < p.2 then p else best) x).2 := by
  induction xs generalizing x with
  | nil =>
    intro q hq
    rcases List.mem_cons.mp hq with h | h
    · rw [h]
      exact le_refl _
    · simp at h
  | cons y ys ih =>
    have hx : x.2 ≤ (if x.2 < y.2 then y else x).2 := by
      split_ifs with h
      · exact le_of_lt h
      · exact le_refl _
    have hy : y.2 ≤ (if x.2 < y.2 then y else x).2 := by
      split_ifs with h
      · exact le_refl _
      · exact not_lt.mp h
    intro q hq
    simp only [List.foldl_cons]
    rcases List.mem_cons.mp hq with h | h
    · rw [h]
      exact le_trans hx (ih _ _ (List.mem_cons_self _ _))
    · rcases List.mem_cons.mp h with h2 | h2
      · rw [h2]
        exact le_trans hy (ih _ _ (List.mem_cons_self _ _))
      · exact ih _ _ (List.mem_cons_of_mem _ h2)

lemma foldl_min_mem (x : ℕ × ℚ) (xs : List (ℕ × ℚ)) :
    xs.foldl (fun best p => if p.2 < best.2 then p else best) x ∈ x :: xs := by
  induction xs generalizing x with
  | nil => simp
  | cons y ys ih =>
    simp only [List.foldl_cons]
    rcases List.mem_cons.mp (ih (if y.2 < x.2 then y else x)) with h | h
    · rw [h]
      split_ifs
      · exact List.mem_cons_of_mem _ (List.mem_cons_self _ _)
      · exact List.mem_cons_self _ _
    · exact List.mem_cons_of_mem _ (List.mem_cons_of_mem _ h)

lemma foldl_min_le (x : ℕ × ℚ) (xs : List (ℕ × ℚ)) :
    ∀ q ∈ x :: xs,
      (xs.foldl (fun best p => if p.2 < best.2 then p else best) x).2 ≤ q.2 := by
  induction xs generalizing x with
  | nil =>
    intro q hq
    rcases List.mem_cons.mp hq with h | h
    · rw [h]
      exact le_refl _
    · simp at h
  | cons y ys ih =>
    have hx : (if y.2 < x.2 then y else x).2 ≤ x.2 := by
      split_ifs with h
      · exact le_of_lt h
      · exact le_refl _
    have hy : (if y.2 < x.2 then y else x).2 ≤ y.2 := by
      split_ifs with h
      · exact le_refl _
      · exact not_lt.mp h
    intro q hq
    simp only [List.foldl_cons]
    rcases List.mem_cons.mp hq with h | h
    · rw [h]
      exact le_trans (ih _ _ (List.mem_cons_self _ _)) hx
    · rcases List.mem_cons.mp h with h2 | h2
      · rw [h2]
        exact le_trans (ih _ _ (List.mem_cons_self _ _)) hy
      · exact ih _ _ (List.mem_cons_of_mem _ h2)

lemma argmaxPair_mem {md : List (ℕ × ℚ)} (h : md ≠ []) :
    Utils.argmaxPair md ∈ md := by
  cases md with
  | nil => exact absurd rfl h
  | cons x xs => exact foldl_max_mem x xs

lemma le_argmaxPair {md : List (ℕ × ℚ)} :
    ∀ q ∈ md, q.2 ≤ (Utils.argmaxPair md).2 := by
  cases md with
  | nil => intro q hq; simp at hq
  | cons x xs => exact foldl_max_ge x xs

lemma argminPair_mem {md : List (ℕ × ℚ)} (h : md ≠ []) :
    Utils.argminPair md ∈ md := by
  cases md with
  | nil => exact absurd rfl h
  | cons x xs => exact foldl_min_mem x xs

lemma argminPair_le {md : List (ℕ × ℚ)} :
    ∀ q ∈ md, (Utils.argminPair md).2 ≤ q.2 := by
  cases md with
  | nil => intro q hq; simp at hq
  | cons x xs => exact foldl_min_le x xs

lemma monthlyMeans_ne_nil {rows : List (ℕ × ℚ)} (h : rows ≠ []) :
    Utils.monthlyMeans rows ≠ [] := by
  intro hc
  have h1 : Utils.monthKeys rows = [] := by
    have hlen := congrArg List.length hc
    simp only [Utils.monthlyMeans, List.length_map, List.length_nil] at hlen
    exact List.length_eq_zero.mp hlen
  have h2 : (rows.map (·.1)).dedup = [] := by
    have hp := List.perm_insertionSort (· ≤ ·) ((rows.map (·.1)).dedup)
    rw [Utils.monthKeys] at h1
    rw [h1] at hp
    exact (hp.symm.eq_nil)
  have h3 := (List.dedup_eq_nil _).mp h2
  rw [List.map_eq_nil_iff] at h3
  exact h h3

set_option maxRecDepth 4000 in
/-- C6: with at least 12 observations the seasonality block always reports
a seasonality entry; it is flagged present exactly when the spread of the
monthly means exceeds 20% of their overall mean; when present, the peak and
trough months attain the maximal and minimal monthly means;
`identify_trends` attaches this entry to its result for a datetime-typed
date column; and on 12 monthly observations where month 7 has twice every
other month's value, seasonality is present with peak month 7. -/
theorem identify_trends_seasonality_spec :
    (∀ rows : List (ℕ × ℚ), 12 ≤ rows.length →
      ∃ s, Utils.seasonality_block rows = some s ∧
        (s.seasonal = true ↔
          listMean ((Utils.monthlyMeans rows).map (·.2)) * (1/5) <
            listMax ((Utils.monthlyMeans rows).map (·.2)) -
              listMin ((Utils.monthlyMeans rows).map (·.2))) ∧
        (s.seasonal = true →
          (∃ m vm, (m, vm) ∈ Utils.monthlyMeans rows ∧
            s.peak_month = Utils.month_names.lookup m ∧
            ∀ q ∈ Utils.monthlyMeans rows, q.2 ≤ vm) ∧
          (∃ m vm, (m, vm) ∈ Utils.monthlyMeans rows ∧
            s.lowest_month = Utils.month_names.lookup m ∧
            ∀ q ∈ Utils.monthlyMeans rows, vm ≤ q.2))) ∧
    (∀ (O : Type) (regress : List (Int × ℚ) → O) toDT (df : Utils.TFrame)
        (dc vc : String) (ds : List Utils.PyDate) (vs : List ℚ),
      List.lookup dc df = some (.dt ds) →
      List.lookup vc df = some (.num vs) →
      vs.length = ds.length → 12 ≤ ds.length →
      (Utils.identify_trends regress toDT df dc vc).1 =
        .ok (.trends
          (regress (((ds.zip vs).insertionSort
              (fun a b => a.1.t ≤ b.1.t)).map (fun r =>
            (r.1.t - listMinInt (((ds.zip vs).insertionSort
              (fun a b => a.1.t ≤ b.1.t)).map (fun r => r.1.t)), r.2))))
          (Utils.seasonality_block (((ds.zip vs).insertionSort
              (fun a b => a.1.t ≤ b.1.t)).map (fun r =>
            (r.1.month, r.2))))) ∧
      12 ≤ (((ds.zip vs).insertionSort
          (fun a b => a.1.t ≤ b.1.t)).map (fun r =>
        (r.1.month, r.2))).length) ∧
    Utils.seasonality_block
        [(1, 10), (2, 10), (3, 10), (4, 10), (5, 10), (6, 10), (7, 20),
         (8, 10), (9, 10), (10, 10), (11, 10), (12, 10)] =
      some ⟨true, some "7월", some "1월", some (1200/13)⟩ := by
  refine ⟨?_, ?_, ?_⟩
  · intro rows h12
    have hne : rows ≠ [] := by
      intro h
      rw [h] at h12
      simp at h12
    have hmne : Utils.monthlyMeans rows ≠ [] := monthlyMeans_ne_nil hne
    unfold Utils.seasonality_block
    rw [if_pos h12]
    dsimp only
    split_ifs with hcond
    · refine ⟨_, rfl, ⟨fun _ => hcond, fun _ => rfl⟩, fun _ => ⟨?_, ?_⟩⟩
      · exact ⟨(Utils.argmaxPair (Utils.monthlyMeans rows)).1,
          (Utils.argmaxPair (Utils.monthlyMeans rows)).2,
          by simpa using argmaxPair_mem hmne, rfl, le_argmaxPair⟩
      · exact ⟨(Utils.argminPair (Utils.monthlyMeans rows)).1,
          (Utils.argminPair (Utils.monthlyMeans rows)).2,
          by simpa using argminPair_mem hmne, rfl, argminPair_le⟩
    · refine ⟨_, rfl, ?_, ?_⟩
      · simp only [Bool.false_eq_true, false_iff]
        exact hcond
      · intro h
        exact absurd h (by simp)
  · intro O regress toDT df dc vc ds vs hdc hvc hlen h12
    have hslen : ((ds.zip vs).insertionSort
        (fun a b => a.1.t ≤ b.1.t)).length = ds.length := by
      rw [List.length_insertionSort, List.length_zip, hlen, Nat.min_self]
    unfold Utils.identify_trends
    rw [hdc]
    simp only [Utils.convertDates]
    rw [if_neg (by omega)]
    rw [hvc]
    dsimp only
    refine ⟨rfl, ?_⟩
    rw [List.length_map, hslen]
    exact h12
  · have hmk : Utils.monthKeys
        [(1, (10:ℚ)), (2, 10), (3, 10), (4, 10), (5, 10), (6, 10), (7, 20),
         (8, 10), (9, 10), (10, 10), (11, 10), (12, 10)] =
        [1, 2, 3, 4, 5, 6, 7, 8, 9, 10, 11, 12] := by decide
    have hmm2 : Utils.monthlyMeans
        [(1, (10:ℚ)), (2, 10), (3, 10), (4, 10), (5, 10), (6, 10), (7, 20),
         (8, 10), (9, 10), (10, 10), (11, 10), (12, 10)] =
        [(1, 10), (2, 10), (3, 10), (4, 10), (5, 10), (6, 10), (7, 20),
         (8, 10), (9, 10), (10, 10), (11, 10), (12, 10)] := by
      rw [Utils.monthlyMeans, hmk]
      norm_num [listMean, List.filter_cons, List.filter_nil]
    unfold Utils.seasonality_block
    rw [if_pos (show (12:ℕ) ≤ _ by norm_num)]
    dsimp only
    rw [hmm2]
    norm_num [Utils.argmaxPair, Utils.argminPair, listMax, listMin, listMean,
      Utils.month_names, List.lookup, Utils.Seasonality.mk.injEq]
    decide

/-- Witness for `identify_trends_seasonality_spec`: the seasonality entry
exists on the 12-month example. -/
theorem identify_trends_seasonality_spec_witness :
    ∃ s, Utils.seasonality_block
        [(1, (10:ℚ)), (2, 10), (3, 10), (4, 10), (5, 10), (6, 10), (7, 20),
         (8, 10), (9, 10), (10, 10), (11, 10), (12, 10)] = some s := by
  obtain ⟨s, hs, -, -⟩ := identify_trends_seasonality_spec.1
    [(1, (10:ℚ)), (2, 10), (3, 10), (4, 10), (5, 10), (6, 10), (7, 20),
     (8, 10), (9, 10), (10, 10), (11, 10), (12, 10)] (by norm_num)
  exact ⟨s, hs⟩

/-! ## C7: correlation ranking -/

lemma mem_upperPairs {l : List String} {a b : String} :
    (a, b) ∈ Utils.upperPairs l ↔
      ∃ i j, ∃ (hi : i < l.length) (hj : j < l.length), i < j ∧
        l.get ⟨i, hi⟩ = a ∧ l.get ⟨j, hj⟩ = b := by
  induction l with
  | nil => simp [Utils.upperPairs]
  | cons x xs ih =>
    simp only [Utils.upperPairs, List.mem_append, List.mem_map, ih]
    constructor
    · rintro (⟨y, hy, heq⟩ | ⟨i, j, hi, hj, hij, ha, hb⟩)
      · obtain ⟨⟨j, hj⟩, hjy⟩ := List.mem_iff_get.mp hy
        injection heq with h1 h2
        refine ⟨0, j + 1, Nat.succ_pos _, Nat.succ_lt_succ hj,
          Nat.succ_pos _, ?_, ?_⟩
        · simpa using h1
        · rw [h2] at hjy
          simpa using hjy
      · exact ⟨i + 1, j + 1, Nat.succ_lt_succ hi, Nat.succ_lt_succ hj,
          Nat.succ_lt_succ hij, by simpa using ha, by simpa using hb⟩
    · rintro ⟨i, j, hi, hj, hij, ha, hb⟩
      cases i with
      | zero =>
        cases j with
        | zero => omega
        | succ j2 =>
          left
          refine ⟨xs.get ⟨j2, Nat.lt_of_succ_lt_succ hj⟩,
            List.get_mem _ _ _, ?_⟩
          have hx : x = a := by simpa using ha
          have hgb : xs.get ⟨j2, Nat.lt_of_succ_lt_succ hj⟩ = b := by
            simpa using hb
          rw [hx, hgb]
      | succ i2 =>
        cases j with
        | zero => omega
        | succ j2 =>
          right
          exact ⟨i2, j2, Nat.lt_of_succ_lt_succ hi, Nat.lt_of_succ_lt_succ hj,
            Nat.lt_of_succ_lt_succ hij, by simpa using ha, by simpa using hb⟩

lemma upperPairs_mem_both {l : List String} {a b : String}
    (h : (a, b) ∈ Utils.upperPairs l) : a ∈ l ∧ b ∈ l := by
  induction l with
  | nil => simp [Utils.upperPairs] at h
  | cons x xs ih =>
    simp only [Utils.upperPairs, List.mem_append, List.mem_map] at h
    rcases h with ⟨y, hy, heq⟩ | h
    · injection heq with h1 h2
      subst h1
      subst h2
      exact ⟨List.mem_cons_self _ _, List.mem_cons_of_mem _ hy⟩
    · rcases ih h with ⟨ha, hb⟩
      exact ⟨List.mem_cons_of_mem _ ha, List.mem_cons_of_mem _ hb⟩

lemma nodup_upperPairs {l : List String} (h : l.Nodup) :
    (Utils.upperPairs l).Nodup := by
  induction l with
  | nil => simp [Utils.upperPairs]
  | cons x xs ih =>
    rcases List.nodup_cons.mp h with ⟨hx, hxs⟩
    simp only [Utils.upperPairs]
    refine List.Nodup.append ?_ (ih hxs) ?_
    · refine List.Nodup.map ?_ hxs
      intro y z hyz
      injection hyz
    · intro p hp1 hp2
      rcases List.mem_map.mp hp1 with ⟨y, hy, hpy⟩
      rw [← hpy] at hp2
      exact hx (upperPairs_mem_both hp2).1

lemma filterMap_proj_sublist {α β : Type} (f : α → Option β) (g : β → α)
    (hfg : ∀ a b, f a = some b → g b = a) (l : List α) :
    ((l.filterMap f).map g).Sublist l := by
  induction l with
  | nil => simp
  | cons a as ih =>
    rcases hfa : f a with _ | b
    · rw [List.filterMap_cons_none hfa]
      exact ih.cons a
    · rw [List.filterMap_cons_some hfa]
      rw [List.map_cons, hfg a b hfa]
      exact ih.cons₂ a

lemma identify_correlations_eq (corr : String → String → Option ℚ)
    (df : Frame) (t : ℚ) (h : ¬ (numeric_columns df).length < 2) :
    Utils.identify_correlations corr df t =
      ((Utils.upperPairs (numeric_columns df)).filterMap (fun p =>
        match corr p.1 p.2 with
        | some v => if t ≤ pabs v then some (p.1, p.2, v) else none
        | none => none)).insertionSort Utils.corrGE := by
  unfold Utils.identify_correlations
  rw [if_neg h]

/-- C7: `identify_correlations` returns the empty list when there are fewer
than 2 numeric columns; otherwise its result is sorted descending by
absolute coefficient; every entry arises from a strict-upper-triangle pair
of numeric columns whose coefficient clears the threshold; every such pair
appears; and with distinct column names there are no duplicate entries and
no self pairs. -/
theorem identify_correlations_spec (corr : String → String → Option ℚ)
    (df : Frame) (threshold : ℚ) :
    ((numeric_columns df).length < 2 →
      Utils.identify_correlations corr df threshold = []) ∧
    List.Sorted Utils.corrGE (Utils.identify_correlations corr df threshold) ∧
    (∀ e ∈ Utils.identify_correlations corr df threshold,
      threshold ≤ pabs e.2.2 ∧ corr e.1 e.2.1 = some e.2.2 ∧
      ∃ i j, ∃ (hi : i < (numeric_columns df).length)
        (hj : j < (numeric_columns df).length), i < j ∧
        (numeric_columns df).get ⟨i, hi⟩ = e.1 ∧
        (numeric_columns df).get ⟨j, hj⟩ = e.2.1) ∧
    (2 ≤ (numeric_columns df).length →
      ∀ i j, ∀ (hi : i < (numeric_columns df).length)
        (hj : j < (numeric_columns df).length), i < j →
        ∀ v, corr ((numeric_columns df).get ⟨i, hi⟩)
            ((numeric_columns df).get ⟨j, hj⟩) = some v →
          threshold ≤ pabs v →
          ((numeric_columns df).get ⟨i, hi⟩,
            (numeric_columns df).get ⟨j, hj⟩, v) ∈
            Utils.identify_correlations corr df threshold) ∧
    ((numeric_columns df).Nodup →
      ((Utils.identify_correlations corr df threshold).map
        (fun e => (e.1, e.2.1))).Nodup ∧
      ∀ e ∈ Utils.identify_correlations corr df threshold, e.1 ≠ e.2.1) := by
  have hsmall : ∀ h2 : (numeric_columns df).length < 2,
      Utils.identify_correlations corr df threshold = [] := by
    intro h2
    unfold Utils.identify_correlations
    rw [if_pos h2]
  refine ⟨hsmall, ?_, ?_, ?_, ?_⟩
  · by_cases h2 : (numeric_columns df).length < 2
    · rw [hsmall h2]
      exact List.sorted_nil
    · rw [identify_correlations_eq corr df threshold h2]
      exact List.sorted_insertionSort Utils.corrGE _
  · intro e he
    by_cases h2 : (numeric_columns df).length < 2
    · rw [hsmall h2] at he
      simp at he
    · rw [identify_correlations_eq corr df threshold h2] at he
      rw [(List.perm_insertionSort Utils.corrGE _).mem_iff] at he
      rw [List.mem_filterMap] at he
      obtain ⟨p, hp, hfp⟩ := he
      rcases hc : corr p.1 p.2 with _ | v
      · rw [hc] at hfp
        simp at hfp
      · rw [hc] at hfp
        simp only at hfp
        by_cases hle : threshold ≤ pabs v
        · rw [if_pos hle] at hfp
          injection hfp with hfp
          subst hfp
          refine ⟨hle, hc, ?_⟩
          have hp2 : (p.1, p.2) ∈ Utils.upperPairs (numeric_columns df) := by
            simpa using hp
          exact mem_upperPairs.mp hp2
        · rw [if_neg hle] at hfp
          exact absurd hfp Option.noConfusion
  · intro h2 i j hi hj hij v hcorr hle
    have hn2 : ¬ (numeric_columns df).length < 2 := not_lt.mpr h2
    rw [identify_correlations_eq corr df threshold hn2]
    rw [(List.perm_insertionSort Utils.corrGE _).mem_iff]
    rw [List.mem_filterMap]
    refine ⟨((numeric_columns df).get ⟨i, hi⟩,
      (numeric_columns df).get ⟨j, hj⟩), ?_, ?_⟩
    · exact mem_upperPairs.mpr ⟨i, j, hi, hj, hij, rfl, rfl⟩
    · simp only [hcorr]
      rw [if_pos hle]
  · intro hnd
    constructor
    · by_cases h2 : (numeric_columns df).length < 2
      · rw [hsmall h2]
        exact List.nodup_nil
      · rw [identify_correlations_eq corr df threshold h2]
        have hperm := (List.perm_insertionSort Utils.corrGE
          ((Utils.upperPairs (numeric_columns df)).filterMap (fun p =>
            match corr p.1 p.2 with
            | some v => if threshold ≤ pabs v then some (p.1, p.2, v)
              else none
            | none => none))).map (fun e => (e.1, e.2.1))
        rw [hperm.nodup_iff]
        have hsub := filterMap_proj_sublist
          (fun p : String × String =>
            match corr p.1 p.2 with
            | some v => if threshold ≤ pabs v then some (p.1, p.2, v)
              else none
            | none => none)
          (fun e : String × String × ℚ => (e.1, e.2.1))
          (by
            intro p e hfe
            dsimp only at hfe
            rcases hc : corr p.1 p.2 with _ | v
            · rw [hc] at hfe
              simp at hfe
            · rw [hc] at hfe
              simp only at hfe
              by_cases hle : threshold ≤ pabs v
              · rw [if_pos hle] at hfe
                injection hfe with hfe
                subst hfe
                exact Prod.mk.eta
              · rw [if_neg hle] at hfe
                exact absurd hfe Option.noConfusion)
          (Utils.upperPairs (numeric_columns df))
        exact hsub.nodup (nodup_upperPairs hnd)
    · intro e he
      by_cases h2 : (numeric_columns df).length < 2
      · rw [hsmall h2] at he
        simp at he
      · rw [identify_correlations_eq corr df threshold h2] at he
        rw [(List.perm_insertionSort Utils.corrGE _).mem_iff] at he
        rw [List.mem_filterMap] at he
        obtain ⟨p, hp, hfp⟩ := he
        rcases hc : corr p.1 p.2 with _ | v
        · rw [hc] at hfp
          simp at hfp
        · rw [hc] at hfp
          simp only at hfp
          by_cases hle : threshold ≤ pabs v
          · rw [if_pos hle] at hfp
            injection hfp with hfp
            subst hfp
            have hp2 : (p.1, p.2) ∈ Utils.upperPairs (numeric_columns df) := by
              simpa using hp
            obtain ⟨i, j, hi, hj, hij, ha, hb⟩ := mem_upperPairs.mp hp2
            intro heq
            rw [← ha, ← hb] at heq
            have h4 : i = j := by
              simpa using (List.Nodup.get_inj_iff hnd).mp heq
            omega
          · rw [if_neg hle] at hfp
            exact absurd hfp Option.noConfusion

/-- Witness for `identify_correlations_spec`: a dataset with a single
numeric column yields the empty ranking. -/
theorem identify_correlations_spec_witness :
    Utils.identify_correlations (fun _ _ => none)
      [⟨"a", .int64⟩, ⟨"b", .object_⟩] (1/2) = [] :=
  (identify_correlations_spec (fun _ _ => none)
    [⟨"a", .int64⟩, ⟨"b", .object_⟩] (1/2)).1 (by decide)

/-! ## C8: encoding fallback and temporary-file cleanup -/

lemma findSome?_append_none {DF : Type} (parse : Option String → Option DF)
    (l₁ : List String) (enc : String) (l₂ : List String) (df : DF)
    (hl₁ : ∀ e ∈ l₁, parse (some e) = none)
    (henc : parse (some enc) = some df) :
    (l₁ ++ enc :: l₂).findSome? (fun e => parse (some e)) = some df := by
  induction l₁ with
  | nil =>
    rw [List.nil_append, List.findSome?_cons, henc]
  | cons a as ih =>
    rw [List.cons_append, List.findSome?_cons,
      hl₁ a (List.mem_cons_self _ _)]
    exact ih (fun e he => hl₁ e (List.mem_cons_of_mem _ he))

/-- C8: `load_csv_with_encoding` returns the detected-encoding parse when
that first attempt succeeds; when the first attempt fails it returns the
parse of the first fallback encoding — UTF-8, CP949, EUC-KR, Latin-1, in
that order — that succeeds; it raises exactly when the first attempt and
every fallback fail; and `load_uploaded_file` leaves no temporary file
behind on the success path or the failure path while passing the load
outcome through. -/
theorem loader_fallback_and_cleanup {DF : Type} :
    (∀ (detect : Except Unit (Option String))
        (parse : Option String → Option DF) e df,
      detect = .ok e → parse e = some df →
      DataLoader.load_csv_with_encoding detect parse = .ok df) ∧
    (∀ detect (parse : Option String → Option DF) l₁ enc l₂ df,
      DataLoader.first_attempt detect parse = none →
      DataLoader.fallback_encodings = l₁ ++ enc :: l₂ →
      (∀ e ∈ l₁, parse (some e) = none) →
      parse (some enc) = some df →
      DataLoader.load_csv_with_encoding detect parse = .ok df) ∧
    (∀ detect (parse : Option String → Option DF),
      DataLoader.load_csv_with_encoding detect parse = .error () ↔
        DataLoader.first_attempt detect parse = none ∧
        ∀ enc ∈ DataLoader.fallback_encodings, parse (some enc) = none) ∧
    (∀ loadCsv : Except Unit DF,
      (DataLoader.load_uploaded_file loadCsv).2 = false ∧
      (DataLoader.load_uploaded_file loadCsv).1 = loadCsv) := by
  refine ⟨?_, ?_, ?_, ?_⟩
  · intro detect parse e df hdet hparse
    unfold DataLoader.load_csv_with_encoding DataLoader.first_attempt
    rw [hdet]
    dsimp only
    rw [hparse]
  · intro detect parse l₁ enc l₂ df hfa hsplit hl₁ henc
    unfold DataLoader.load_csv_with_encoding
    rw [hfa, hsplit, findSome?_append_none parse l₁ enc l₂ df hl₁ henc]
  · intro detect parse
    unfold DataLoader.load_csv_with_encoding
    rcases hfa : DataLoader.first_attempt detect parse with _ | df
    · rcases hfs : DataLoader.fallback_encodings.findSome?
          (fun e => parse (some e)) with _ | df2
      · constructor
        · intro _
          exact ⟨rfl, List.findSome?_eq_none_iff.mp hfs⟩
        · intro _
          rfl
      · constructor
        · intro h
          exact absurd h (by simp)
        · rintro ⟨-, hall⟩
          rw [List.findSome?_eq_none_iff.mpr (fun e he => hall e he)] at hfs
          exact absurd hfs (by simp)
    · constructor
      · intro h
        exact absurd h (by simp)
      · rintro ⟨hnone, -⟩
        exact absurd hnone (by simp)
  · intro loadCsv
    cases loadCsv with
    | ok df => exact ⟨rfl, rfl⟩
    | error e => exact ⟨rfl, rfl⟩

/-- Witness for `loader_fallback_and_cleanup`: when detection succeeds and
the detected encoding parses, its dataset is returned. -/
theorem loader_fallback_and_cleanup_witness :
    @DataLoader.load_csv_with_encoding ℕ (.ok (some "utf-8"))
      (fun _ => some 7) = .ok 7 :=
  (@loader_fallback_and_cleanup ℕ).1 (.ok (some "utf-8"))
    (fun _ => some 7) (some "utf-8") 7 rfl rfl

/-! ## C9 and C10: identify_trends frame effect and minimum observations -/

lemma colUpdate_cons_self {dc : String} (d2 v : Utils.ColData)
    (ps : Utils.TFrame) :
    Utils.colUpdate ((dc, d2) :: ps) dc v =
      (dc, v) :: Utils.colUpdate ps dc v := by
  simp [Utils.colUpdate]

lemma colUpdate_cons_other {c2 dc : String} (d2 v : Utils.ColData)
    (ps : Utils.TFrame) (hc : c2 ≠ dc) :
    Utils.colUpdate ((c2, d2) :: ps) dc v =
      (c2, d2) :: Utils.colUpdate ps dc v := by
  simp [Utils.colUpdate, hc]

lemma lookup_colUpdate_self {df : Utils.TFrame} {dc : String}
    {cd : Utils.ColData} (v : Utils.ColData)
    (h : List.lookup dc df = some cd) :
    List.lookup dc (Utils.colUpdate df dc v) = some v := by
  induction df with
  | nil => simp [List.lookup] at h
  | cons p ps ih =>
    rcases p with ⟨c2, d2⟩
    by_cases hc : c2 = dc
    · subst hc
      rw [colUpdate_cons_self]
      simp [List.lookup]
    · rw [colUpdate_cons_other _ _ _ hc]
      have hne : (dc == c2) = false :=
        beq_eq_false_iff_ne.mpr (fun hh => hc hh.symm)
      simp only [List.lookup, hne] at h ⊢
      exact ih h

lemma lookup_colUpdate_other {df : Utils.TFrame} {dc c : String}
    (v : Utils.ColData) (hne : c ≠ dc) :
    List.lookup c (Utils.colUpdate df dc v) = List.lookup c df := by
  induction df with
  | nil => simp [Utils.colUpdate]
  | cons p ps ih =>
    rcases p with ⟨c2, d2⟩
    by_cases hc : c2 = dc
    · subst hc
      rw [colUpdate_cons_self]
      have hb : (c == c2) = false := beq_eq_false_iff_ne.mpr hne
      simp only [List.lookup, hb]
      exact ih
    · rw [colUpdate_cons_other _ _ _ hc]
      simp only [List.lookup]
      rcases hb : (c == c2) with _ | _
      · simp only [hb]
        exact ih
      · simp only [hb]

/-- C9: when the date column is present, not datetime-typed, and
convertible, `identify_trends` overwrites that column of the caller's frame
in place with the converted datetime values — even on paths that then
return an error — and leaves every other column unchanged. -/
theorem identify_trends_mutates_date_column {O : Type}
    (regress : List (Int × ℚ) → O)
    (toDT : Utils.ColData → Option (List Utils.PyDate))
    (df : Utils.TFrame) (dc vc : String) (cd : Utils.ColData)
    (ds : List Utils.PyDate)
    (hdc : List.lookup dc df = some cd)
    (hnot : ∀ xs, cd ≠ .dt xs)
    (hconv : toDT cd = some ds) :
    (Utils.identify_trends regress toDT df dc vc).2 =
      Utils.colUpdate df dc (.dt ds) ∧
    List.lookup dc (Utils.identify_trends regress toDT df dc vc).2 =
      some (.dt ds) ∧
    (∀ c, c ≠ dc →
      List.lookup c (Utils.identify_trends regress toDT df dc vc).2 =
        List.lookup c df) := by
  have hcv : Utils.convertDates toDT df dc cd =
      some (ds, Utils.colUpdate df dc (.dt ds)) := by
    cases cd with
    | dt xs => exact absurd rfl (hnot xs)
    | raw ss => simp [Utils.convertDates, hconv]
    | num vs2 => simp [Utils.convertDates, hconv]
  have hframe : (Utils.identify_trends regress toDT df dc vc).2 =
      Utils.colUpdate df dc (.dt ds) := by
    unfold Utils.identify_trends
    rw [hdc]
    dsimp only
    rw [hcv]
    dsimp only
    split_ifs
    · rfl
    · rcases hv : List.lookup vc (Utils.colUpdate df dc (.dt ds)) with _ | cv
      · rfl
      · cases cv with
        | dt xs => rfl
        | raw ss => rfl
        | num vs => rfl
  refine ⟨hframe, ?_, ?_⟩
  · rw [hframe]
    exact lookup_colUpdate_self _ hdc
  · intro c hc
    rw [hframe]
    exact lookup_colUpdate_other _ hc

/-- Witness for `identify_trends_mutates_date_column`: a two-column frame
whose raw date column converts. -/
theorem identify_trends_mutates_date_column_witness :
    (Utils.identify_trends (fun _ => (0 : ℕ)) (fun _ => some [⟨0, 1⟩])
        [("d", .raw ["x"]), ("v", .num [1])] "d" "v").2 =
      Utils.colUpdate [("d", .raw ["x"]), ("v", .num [1])] "d"
        (.dt [⟨0, 1⟩]) :=
  (identify_trends_mutates_date_column (fun _ => (0 : ℕ))
    (fun _ => some [⟨0, 1⟩]) [("d", .raw ["x"]), ("v", .num [1])] "d" "v"
    (.raw ["x"]) [⟨0, 1⟩] rfl
    (fun _ h => Utils.ColData.noConfusion h) rfl).1

/-- C10: with a present, datetime-convertible (or already datetime) date
column and fewer than 3 rows, `identify_trends` returns the structured
insufficient-data error dictionary — not a trend value — and raises no
exception, regardless of the value column, which the source only touches
after this row-count check. -/
theorem identify_trends_insufficient_data {O : Type}
    (regress : List (Int × ℚ) → O)
    (toDT : Utils.ColData → Option (List Utils.PyDate))
    (df : Utils.TFrame) (dc vc : String) (cd : Utils.ColData)
    (ds : List Utils.PyDate) (df' : Utils.TFrame)
    (hdc : List.lookup dc df = some cd)
    (hcv : Utils.convertDates toDT df dc cd = some (ds, df'))
    (hsmall : ds.length < 3) :
    (Utils.identify_trends regress toDT df dc vc).1 =
      .ok (.err "트렌드 분석을 위한 충분한 데이터가 없습니다.") := by
  unfold Utils.identify_trends
  rw [hdc]
  dsimp only
  rw [hcv]
  dsimp only
  rw [if_pos hsmall]

/-- Witness for `identify_trends_insufficient_data`: two rows only, and no
value column present at all — the error dictionary is still returned and
nothing is raised. -/
theorem identify_trends_insufficient_data_witness :
    (Utils.identify_trends (fun _ => (0 : ℕ)) (fun _ => none)
        [("d", .dt [⟨0, 1⟩, ⟨1, 2⟩])] "d" "v").1 =
      .ok (.err "트렌드 분석을 위한 충분한 데이터가 없습니다.") :=
  identify_trends_insufficient_data (fun _ => (0 : ℕ)) (fun _ => none)
    [("d", .dt [⟨0, 1⟩, ⟨1, 2⟩])] "d" "v" (.dt [⟨0, 1⟩, ⟨1, 2⟩])
    [⟨0, 1⟩, ⟨1, 2⟩] [("d", .dt [⟨0, 1⟩, ⟨1, 2⟩])] rfl rfl (by decide)
